import Mathlib

/-!
Shallow embedding of the two-asset efficient-frontier notebook
(`EF2-checkpoint.ipynb`): the weight grid, the portfolio-returns and
portfolio-volatility computations, and the Sharpe-ratio grid search.

Real-number inputs (expected returns, standard deviations, correlation,
weights) are modelled as exact rationals; the square root produced by
`var ** 0.5` lives in `ℝ`.  Values that numpy can turn into `inf`/`-inf`/
`nan` (the Sharpe division) are modelled by the type `NpF` below.
-/

/-- Result values of numpy floating-point operations, idealised: either a
finite exact real, one of the two infinities, or `nan`.  Used for the Sharpe
ratio `(rets[i] - r_f) / vol[i]`, which numpy turns into `±inf` (or `nan`)
when `vol[i] = 0`. -/
inductive NpF where
  | fin : ℝ → NpF
  | pinf : NpF
  | ninf : NpF
  | nan : NpF

open Classical in
/-- Numpy division of two finite floats: `a / 0` is `inf` for `a > 0`,
`-inf` for `a < 0`, `nan` for `a = 0`; otherwise the exact quotient. -/
noncomputable def npdiv (a b : ℝ) : NpF :=
  if b = 0 then
    (if a = 0 then NpF.nan else if 0 < a then NpF.pinf else NpF.ninf)
  else NpF.fin (a / b)

/-- Numpy strict greater-than on `NpF` values: any comparison with `nan`
is false, `inf > x` holds for every finite `x` and for `-inf`, and finite
values compare as reals. -/
def NpF.gt : NpF → NpF → Prop
  | NpF.fin a, NpF.fin b => b < a
  | NpF.fin _, NpF.ninf => True
  | NpF.pinf, NpF.fin _ => True
  | NpF.pinf, NpF.ninf => True
  | _, _ => False

/-- The source's weight sweep `np.linspace(0, 1, n)`: `n` evenly spaced
rationals from `0` to `1`, the `i`-th being `i / (n - 1)`.  For `n = 1`
numpy returns `[0.0]` (just the start point) and for `n = 0` the empty
array; both coincide with this formula under `x / 0 = 0`. -/
def linspace01 (n : ℕ) : List ℚ :=
  (List.range n).map (fun i : ℕ => (i : ℚ) / ((n : ℚ) - 1))

/-- Source line `weights = np.array([[w, 1-w] for w in np.linspace(0,1,n_points)])`:
the grid of weight pairs `(w_A, w_B)`. -/
def weights (n_points : ℕ) : List (ℚ × ℚ) :=
  (linspace01 n_points).map (fun w => (w, 1 - w))

/-- Source function `p_returns(weights, r_A, r_B)`: the matrix product
`weights @ [[r_A], [r_B]]`, i.e. one portfolio expected return
`w_A * r_A + w_B * r_B` per grid point. -/
def p_returns (weights : List (ℚ × ℚ)) (r_A r_B : ℚ) : List ℚ :=
  weights.map (fun e => e.1 * r_A + e.2 * r_B)

/-- The variance expression computed inside the loop of the source function
`p_var`: with `var_A = std_A**2` and `var_B = std_B**2`,
`var = (var_A**2)*(e[0]**2) + (var_B**2)*(e[1]**2)
     + np.prod([2, e[0], e[1], var_A, var_B, rho_AB])`.
Note that the source squares the variances once more (`var_A ** 2`) and
uses `var_A * var_B` (not `std_A * std_B`) in the cross term. -/
def port_var (std_A std_B rho_AB : ℚ) (e : ℚ × ℚ) : ℚ :=
  (std_A ^ 2) ^ 2 * e.1 ^ 2 + (std_B ^ 2) ^ 2 * e.2 ^ 2 +
    2 * e.1 * e.2 * (std_A ^ 2) * (std_B ^ 2) * rho_AB

/-- Source function `p_var(weights, std_A, std_B, rho_AB)`: for every grid
point it computes the variance expression `port_var` and appends
`var ** 0.5`. -/
noncomputable def p_var (weights : List (ℚ × ℚ)) (std_A std_B rho_AB : ℚ) :
    List ℝ :=
  weights.map (fun e => Real.sqrt ((port_var std_A std_B rho_AB e : ℚ) : ℝ))

/-- Modelled from the spec (section 4.3), for comparison with the source's
`p_var`: the textbook two-asset volatility
`sqrt(std_A^2*w_A^2 + std_B^2*w_B^2 + 2*w_A*w_B*std_A*std_B*rho)`, in which
each standard deviation is squared exactly once. -/
noncomputable def compute_volatility_spec (weights : List (ℚ × ℚ))
    (std_A std_B rho_AB : ℚ) : List ℝ :=
  weights.map (fun e =>
    Real.sqrt ((std_A ^ 2 * e.1 ^ 2 + std_B ^ 2 * e.2 ^ 2 +
      2 * e.1 * e.2 * std_A * std_B * rho_AB : ℚ) : ℝ))

/-- One point of the Sharpe scan: the weight pair `e` together with the
entries `rets[i]` and `vol[i]` computed from it (`max_sharpe` iterates over
`weights` and indexes into `rets` and `vol` which are aligned with it). -/
noncomputable def ms_point (A B : ℚ × ℚ) (rho_AB : ℚ) (e : ℚ × ℚ) :
    (ℚ × ℚ) × ℚ × ℝ :=
  (e, e.1 * A.1 + e.2 * B.1, Real.sqrt ((port_var A.2 B.2 rho_AB e : ℚ) : ℝ))

/-- The loop line `sharpe = (rets[i] - r_f) / vol[i]` of `max_sharpe`. -/
noncomputable def sharpe_of (r_f : ℚ) (x : (ℚ × ℚ) × ℚ × ℝ) : NpF :=
  npdiv ((x.2.1 - r_f : ℚ) : ℝ) x.2.2

open Classical in
/-- One iteration of the `for i, e in enumerate(weights)` loop of the
source function `max_sharpe`.  The state is
`(max_weights, max_sharpe_ratio, local max_sharpe)`:
`max_weights` is `none` while it still holds the initial Python int `0`
(the `isinstance(max_weights, int)` test); the third component is the local
variable `max_sharpe` that the strict-improvement branch assigns (shadowing
the function name) and that is never returned.  The loop body is
```
sharpe = (rets[i] - r_f) / vol[i]
if isinstance(max_weights, int): max_weights = e
if max_sharpe_ratio == 0:        max_sharpe_ratio = sharpe
if sharpe > max_sharpe_ratio:    max_sharpe = sharpe; max_weights = e
```
so with `s := sharpe_of r_f x` and `r1 := (if ratio == 0 then s else ratio)`
the new state is `(some e, r1, s)` when `s > r1`, and otherwise keeps
`max_weights` (seeding it with `e` if it was still the int `0`). -/
noncomputable def ms_step (r_f : ℚ) (st : Option (ℚ × ℚ) × NpF × NpF)
    (x : (ℚ × ℚ) × ℚ × ℝ) : Option (ℚ × ℚ) × NpF × NpF :=
  if NpF.gt (sharpe_of r_f x)
      (if st.2.1 = NpF.fin 0 then sharpe_of r_f x else st.2.1) then
    (some x.1, (if st.2.1 = NpF.fin 0 then sharpe_of r_f x else st.2.1),
      sharpe_of r_f x)
  else
    ((if st.1 = Option.none then some x.1 else st.1),
      (if st.2.1 = NpF.fin 0 then sharpe_of r_f x else st.2.1), st.2.2)

/-- The full loop of the source function `max_sharpe`: compute `rets` and
`vol`, start from `max_weights = 0` (an int, modelled `none`) and
`max_sharpe_ratio = 0`, and fold `ms_step` over the grid. -/
noncomputable def ms_run (r_f : ℚ) (weights : List (ℚ × ℚ)) (A B : ℚ × ℚ)
    (rho_AB : ℚ) : Option (ℚ × ℚ) × NpF × NpF :=
  (weights.zip ((p_returns weights A.1 B.1).zip
      (p_var weights A.2 B.2 rho_AB))).foldl
    (ms_step r_f) (Option.none, NpF.fin 0, NpF.fin 0)

/-- Source function `max_sharpe(r_f, weights, A, B, rho_AB)`: run the scan
and `return max_weights, max_sharpe_ratio`. -/
noncomputable def max_sharpe (r_f : ℚ) (weights : List (ℚ × ℚ)) (A B : ℚ × ℚ)
    (rho_AB : ℚ) : Option (ℚ × ℚ) × NpF :=
  ((ms_run r_f weights A B rho_AB).1, (ms_run r_f weights A B rho_AB).2.1)

open Classical in
/-- The weight pair the scan actually ends on once the running ratio `r` is
frozen: the last grid point whose Sharpe value is numpy-greater than `r`
(the accumulator `w` if none is). -/
noncomputable def lastExceed (r_f : ℚ) (r : NpF) (w : ℚ × ℚ)
    (xs : List ((ℚ × ℚ) × ℚ × ℝ)) : ℚ × ℚ :=
  xs.foldl (fun acc x => if NpF.gt (sharpe_of r_f x) r then x.1 else acc) w

lemma NpF.gt_irrefl (x : NpF) : ¬ NpF.gt x x := by
  cases x <;> simp [NpF.gt]

lemma NpF.not_gt_pinf (x : NpF) : ¬ NpF.gt x NpF.pinf := by
  cases x <;> simp [NpF.gt]

lemma NpF.fin_ne_fin_zero {q : ℚ} (hq : q ≠ 0) :
    NpF.fin ((q : ℚ) : ℝ) ≠ NpF.fin 0 := by
  simpa using hq

lemma lastExceed_nil (r_f : ℚ) (r : NpF) (w : ℚ × ℚ) :
    lastExceed r_f r w [] = w := rfl

lemma lastExceed_cons_pos (r_f : ℚ) (r : NpF) (w : ℚ × ℚ)
    (x : (ℚ × ℚ) × ℚ × ℝ) (xs : List ((ℚ × ℚ) × ℚ × ℝ))
    (h : NpF.gt (sharpe_of r_f x) r) :
    lastExceed r_f r w (x :: xs) = lastExceed r_f r x.1 xs := by
  unfold lastExceed
  rw [List.foldl_cons, if_pos h]

lemma lastExceed_cons_neg (r_f : ℚ) (r : NpF) (w : ℚ × ℚ)
    (x : (ℚ × ℚ) × ℚ × ℝ) (xs : List ((ℚ × ℚ) × ℚ × ℝ))
    (h : ¬ NpF.gt (sharpe_of r_f x) r) :
    lastExceed r_f r w (x :: xs) = lastExceed r_f r w xs := by
  unfold lastExceed
  rw [List.foldl_cons, if_neg h]

lemma ms_zip_eq (ws : List (ℚ × ℚ)) (A B : ℚ × ℚ) (rho_AB : ℚ) :
    ws.zip ((p_returns ws A.1 B.1).zip (p_var ws A.2 B.2 rho_AB)) =
      ws.map (ms_point A B rho_AB) := by
  induction ws with
  | nil => rfl
  | cons e t ih => simpa [p_returns, p_var, ms_point] using ih

lemma ms_step_init (r_f : ℚ) (x : (ℚ × ℚ) × ℚ × ℝ) :
    ms_step r_f (Option.none, NpF.fin 0, NpF.fin 0) x =
      (some x.1, sharpe_of r_f x, NpF.fin 0) := by
  simp [ms_step, NpF.gt_irrefl]

open Classical in
lemma ms_step_frozen (r_f : ℚ) (w : ℚ × ℚ) (r : NpF) (hr : r ≠ NpF.fin 0)
    (sh : NpF) (x : (ℚ × ℚ) × ℚ × ℝ) :
    ms_step r_f (some w, r, sh) x =
      if NpF.gt (sharpe_of r_f x) r then (some x.1, r, sharpe_of r_f x)
      else (some w, r, sh) := by
  simp [ms_step, hr]

lemma foldl_frozen (r_f : ℚ) (r : NpF) (hr : r ≠ NpF.fin 0) :
    ∀ (xs : List ((ℚ × ℚ) × ℚ × ℝ)) (w : ℚ × ℚ) (sh : NpF),
      ∃ sh', xs.foldl (ms_step r_f) (some w, r, sh) =
        (some (lastExceed r_f r w xs), r, sh') := by
  intro xs
  induction xs with
  | nil =>
    intro w sh
    exact ⟨sh, by simp [lastExceed_nil]⟩
  | cons x t ih =>
    intro w sh
    rw [List.foldl_cons, ms_step_frozen r_f w r hr sh x]
    by_cases h : NpF.gt (sharpe_of r_f x) r
    · rw [if_pos h, lastExceed_cons_pos r_f r w x t h]
      exact ih x.1 (sharpe_of r_f x)
    · rw [if_neg h, lastExceed_cons_neg r_f r w x t h]
      exact ih w sh

lemma ms_run_cons (r_f : ℚ) (e : ℚ × ℚ) (rest : List (ℚ × ℚ)) (A B : ℚ × ℚ)
    (rho_AB : ℚ) :
    ms_run r_f (e :: rest) A B rho_AB =
      (rest.map (ms_point A B rho_AB)).foldl (ms_step r_f)
        (some e, sharpe_of r_f (ms_point A B rho_AB e), NpF.fin 0) := by
  unfold ms_run
  rw [ms_zip_eq, List.map_cons, List.foldl_cons, ms_step_init]
  rfl

/-- Characterization of the scan when the first grid point's Sharpe value is
nonzero: the running ratio freezes at that value, and the returned weights
are those of the last grid point whose Sharpe value numpy-exceeds it. -/
lemma max_sharpe_char (r_f : ℚ) (e : ℚ × ℚ) (rest : List (ℚ × ℚ))
    (A B : ℚ × ℚ) (rho_AB : ℚ)
    (h0 : sharpe_of r_f (ms_point A B rho_AB e) ≠ NpF.fin 0) :
    max_sharpe r_f (e :: rest) A B rho_AB =
      (some (lastExceed r_f (sharpe_of r_f (ms_point A B rho_AB e)) e
          (rest.map (ms_point A B rho_AB))),
        sharpe_of r_f (ms_point A B rho_AB e)) := by
  obtain ⟨sh', hsh⟩ :=
    foldl_frozen r_f _ h0 (rest.map (ms_point A B rho_AB)) e (NpF.fin 0)
  unfold max_sharpe
  rw [ms_run_cons, hsh]

lemma sharpe_of_ms_point (r_f : ℚ) (A B : ℚ × ℚ) (rho_AB : ℚ) (e : ℚ × ℚ) :
    sharpe_of r_f (ms_point A B rho_AB e) =
      npdiv ((e.1 * A.1 + e.2 * B.1 - r_f : ℚ) : ℝ)
        (Real.sqrt ((port_var A.2 B.2 rho_AB e : ℚ) : ℝ)) := rfl

/-- With a positive variance, a nonnegative excess return `c` and a
nonnegative target `q` such that `c ^ 2 = q ^ 2 * var`, the Sharpe value of
a grid point is exactly the finite value `q`. -/
lemma sharpe_eq_fin (r_f : ℚ) (A B : ℚ × ℚ) (rho_AB : ℚ) (e : ℚ × ℚ) (q : ℚ)
    (hv : 0 < port_var A.2 B.2 rho_AB e)
    (hc : 0 ≤ e.1 * A.1 + e.2 * B.1 - r_f) (hq : 0 ≤ q)
    (h : (e.1 * A.1 + e.2 * B.1 - r_f) ^ 2 = q ^ 2 * port_var A.2 B.2 rho_AB e) :
    sharpe_of r_f (ms_point A B rho_AB e) = NpF.fin ((q : ℚ) : ℝ) := by
  have hv' : (0 : ℝ) < ((port_var A.2 B.2 rho_AB e : ℚ) : ℝ) := by
    exact_mod_cast hv
  have hs : Real.sqrt ((port_var A.2 B.2 rho_AB e : ℚ) : ℝ) ≠ 0 :=
    Real.sqrt_ne_zero'.mpr hv'
  rw [sharpe_of_ms_point]
  unfold npdiv
  rw [if_neg hs]
  congr 1
  rw [div_eq_iff hs]
  have hcr : (0 : ℝ) ≤ ((e.1 * A.1 + e.2 * B.1 - r_f : ℚ) : ℝ) := by
    exact_mod_cast hc
  have hqr : (0 : ℝ) ≤ ((q : ℚ) : ℝ) := by exact_mod_cast hq
  have h2 : ((e.1 * A.1 + e.2 * B.1 - r_f : ℚ) : ℝ) ^ 2 =
      ((q : ℚ) : ℝ) ^ 2 * ((port_var A.2 B.2 rho_AB e : ℚ) : ℝ) := by
    exact_mod_cast h
  have key : ((e.1 * A.1 + e.2 * B.1 - r_f : ℚ) : ℝ) =
      Real.sqrt (((q : ℚ) : ℝ) ^ 2 * ((port_var A.2 B.2 rho_AB e : ℚ) : ℝ)) := by
    rw [← h2, Real.sqrt_sq hcr]
  rw [key, Real.sqrt_mul (sq_nonneg _), Real.sqrt_sq hqr]

/-- With a positive variance, positive excess return and nonnegative target,
the Sharpe value numpy-exceeds the finite target `q` iff
`q ^ 2 * var < c ^ 2` as rationals. -/
lemma sharpe_gt_fin_iff (r_f : ℚ) (A B : ℚ × ℚ) (rho_AB : ℚ) (e : ℚ × ℚ)
    (q : ℚ) (hv : 0 < port_var A.2 B.2 rho_AB e) (hq : 0 ≤ q)
    (hc : 0 < e.1 * A.1 + e.2 * B.1 - r_f) :
    (NpF.gt (sharpe_of r_f (ms_point A B rho_AB e)) (NpF.fin ((q : ℚ) : ℝ)) ↔
      q ^ 2 * port_var A.2 B.2 rho_AB e <
        (e.1 * A.1 + e.2 * B.1 - r_f) ^ 2) := by
  have hv' : (0 : ℝ) < ((port_var A.2 B.2 rho_AB e : ℚ) : ℝ) := by
    exact_mod_cast hv
  have hsp : 0 < Real.sqrt ((port_var A.2 B.2 rho_AB e : ℚ) : ℝ) :=
    Real.sqrt_pos.mpr hv'
  have hcr : (0 : ℝ) < ((e.1 * A.1 + e.2 * B.1 - r_f : ℚ) : ℝ) := by
    exact_mod_cast hc
  have hqr : (0 : ℝ) ≤ ((q : ℚ) : ℝ) := by exact_mod_cast hq
  rw [sharpe_of_ms_point]
  unfold npdiv
  rw [if_neg (ne_of_gt hsp)]
  show ((q : ℚ) : ℝ) < _ / _ ↔ _
  rw [lt_div_iff₀ hsp]
  have hmul : ((q : ℚ) : ℝ) * Real.sqrt ((port_var A.2 B.2 rho_AB e : ℚ) : ℝ) =
      Real.sqrt (((q : ℚ) : ℝ) ^ 2 * ((port_var A.2 B.2 rho_AB e : ℚ) : ℝ)) := by
    rw [Real.sqrt_mul (sq_nonneg _), Real.sqrt_sq hqr]
  rw [hmul, Real.sqrt_lt' hcr]
  exact_mod_cast Iff.rfl

lemma sharpe_not_gt_fin (r_f : ℚ) (A B : ℚ × ℚ) (rho_AB : ℚ) (e : ℚ × ℚ)
    (q : ℚ) (hv : 0 < port_var A.2 B.2 rho_AB e) (hq : 0 ≤ q)
    (hc : 0 < e.1 * A.1 + e.2 * B.1 - r_f)
    (hle : (e.1 * A.1 + e.2 * B.1 - r_f) ^ 2 ≤ q ^ 2 * port_var A.2 B.2 rho_AB e) :
    ¬ NpF.gt (sharpe_of r_f (ms_point A B rho_AB e)) (NpF.fin ((q : ℚ) : ℝ)) := by
  rw [sharpe_gt_fin_iff r_f A B rho_AB e q hv hq hc]
  exact not_lt.mpr hle

/-- When a grid point has zero variance (hence zero volatility) and a
positive excess return, the Sharpe division produces numpy `inf`. -/
lemma sharpe_eq_pinf (r_f : ℚ) (A B : ℚ × ℚ) (rho_AB : ℚ) (e : ℚ × ℚ)
    (hv : port_var A.2 B.2 rho_AB e = 0)
    (hc : 0 < e.1 * A.1 + e.2 * B.1 - r_f) :
    sharpe_of r_f (ms_point A B rho_AB e) = NpF.pinf := by
  have hcr : (0 : ℝ) < ((e.1 * A.1 + e.2 * B.1 - r_f : ℚ) : ℝ) := by
    exact_mod_cast hc
  rw [sharpe_of_ms_point, hv]
  unfold npdiv
  rw [if_pos (by simp [Real.sqrt_eq_zero'])]
  rw [if_neg (ne_of_gt hcr), if_pos hcr]

lemma weights_length (n : ℕ) : (weights n).length = n := by
  unfold weights linspace01
  rw [List.length_map, List.length_map, List.length_range]

lemma weights_getElem (n i : ℕ) (h : i < (weights n).length) :
    (weights n)[i] =
      ((i : ℚ) / ((n : ℚ) - 1), 1 - (i : ℚ) / ((n : ℚ) - 1)) := by
  unfold weights linspace01
  simp only [List.getElem_map, List.getElem_range]

lemma linspace01_mem (n : ℕ) (w : ℚ) (hw : w ∈ linspace01 n) :
    0 ≤ w ∧ w ≤ 1 := by
  unfold linspace01 at hw
  simp only [List.mem_map, List.mem_range] at hw
  obtain ⟨i, hi, rfl⟩ := hw
  rcases Nat.lt_or_ge n 2 with h2 | h2
  · have hi0 : i = 0 := by omega
    subst hi0
    norm_num
  · have hn : (2 : ℚ) ≤ (n : ℚ) := by exact_mod_cast h2
    have hpos : (0 : ℚ) < (n : ℚ) - 1 := by linarith
    refine ⟨div_nonneg (by positivity) hpos.le, ?_⟩
    rw [div_le_one hpos]
    have : (i : ℚ) + 1 ≤ (n : ℚ) := by exact_mod_cast hi
    linarith

/-- A rational square root: `Real.sqrt` of (the cast of) a rational that is
a perfect square `q ^ 2` with `0 ≤ q` is the cast of `q`. -/
lemma sqrt_rat_eq (v q : ℚ) (hq : 0 ≤ q) (h : v = q ^ 2) :
    Real.sqrt ((v : ℚ) : ℝ) = ((q : ℚ) : ℝ) := by
  rw [h]
  push_cast
  exact Real.sqrt_sq (by exact_mod_cast hq)

/-- C4: for every `N ≥ 2` the weight grid has exactly `N` pairs, starts at
`(0, 1)`, ends at `(1, 0)`, the `i`-th `w_A` is `i / (N - 1)` (so `w_A` is
linearly spaced with step `1 / (N - 1)` and strictly increasing), and every
pair's two components sum to `1`. -/
theorem weights_grid_spec (n : ℕ) (hn : 2 ≤ n) :
    (weights n).length = n ∧
    (weights n).head? = some (0, 1) ∧
    (weights n).getLast? = some (1, 0) ∧
    (∀ i (h : i < (weights n).length),
      (weights n)[i] =
        ((i : ℚ) / ((n : ℚ) - 1), 1 - (i : ℚ) / ((n : ℚ) - 1))) ∧
    (weights n).Pairwise (fun p q => p.1 < q.1) ∧
    ∀ p ∈ weights n, p.1 + p.2 = 1 := by
  have hn' : (2 : ℚ) ≤ (n : ℚ) := by exact_mod_cast hn
  have hpos : (0 : ℚ) < (n : ℚ) - 1 := by linarith
  have hlen : (weights n).length = n := weights_length n
  refine ⟨hlen, ?_, ?_, fun i h => weights_getElem n i h, ?_, ?_⟩
  · rw [List.head?_eq_getElem?]
    have h0 : 0 < (weights n).length := by omega
    rw [List.getElem?_eq_getElem h0, weights_getElem n 0 h0]
    norm_num
  · rw [List.getLast?_eq_getElem?]
    have hl : (weights n).length - 1 < (weights n).length := by omega
    rw [List.getElem?_eq_getElem hl, weights_getElem n _ hl]
    have hcast : (((weights n).length - 1 : ℕ) : ℚ) = (n : ℚ) - 1 := by
      rw [hlen]
      have h1 : 1 ≤ n := by omega
      push_cast [h1]
      ring
    rw [hcast, div_self (ne_of_gt hpos)]
    norm_num
  · unfold weights linspace01
    rw [List.map_map, List.pairwise_map]
    apply (List.pairwise_lt_range n).imp
    intro a b hab
    have hab' : (a : ℚ) < (b : ℚ) := by exact_mod_cast hab
    show (a : ℚ) / ((n : ℚ) - 1) < (b : ℚ) / ((n : ℚ) - 1)
    gcongr
  · intro p hp
    unfold weights at hp
    simp only [List.mem_map] at hp
    obtain ⟨w, _, rfl⟩ := hp
    ring

/-- C4 witness: the guarantees hold at the concrete grid size `N = 3`. -/
theorem weights_grid_spec_witness :
    2 ≤ 3 ∧
    ((weights 3).length = 3 ∧
      (weights 3).head? = some (0, 1) ∧
      (weights 3).getLast? = some (1, 0) ∧
      (∀ i (h : i < (weights 3).length),
        (weights 3)[i] =
          ((i : ℚ) / ((3 : ℚ) - 1), 1 - (i : ℚ) / ((3 : ℚ) - 1))) ∧
      (weights 3).Pairwise (fun p q => p.1 < q.1) ∧
      ∀ p ∈ weights 3, p.1 + p.2 = 1) :=
  ⟨by norm_num, weights_grid_spec 3 (by norm_num)⟩

/-- C5 counterexample: for `N = 1` the generator does not fail — it
produces a (one-point) grid, refuting the claim that every `N < 2` raises
an InvalidArgument failure before any grid is produced. -/
theorem weights_one_point_counterexample : (weights 1).length = 1 := by
  norm_num [weights, linspace01, List.range_succ]

/-- C5 amended: for `N < 2` the generator does not fail: `N = 1` yields the
single pair `(0, 1)` (as `np.linspace(0, 1, 1)` is `[0.0]`) and `N = 0`
yields the empty grid. -/
theorem weights_small_n : weights 1 = [(0, 1)] ∧ weights 0 = [] := by
  norm_num [weights, linspace01, List.range_succ]

/-- C9: on every generator grid, `p_returns` has the grid's length, its
`i`-th entry is `w_A * r_A + w_B * r_B` for the `i`-th weight pair, and
every entry lies between `min r_A r_B` and `max r_A r_B` inclusive. -/
theorem p_returns_spec (n : ℕ) (r_A r_B : ℚ) :
    (p_returns (weights n) r_A r_B).length = (weights n).length ∧
    (∀ i (h : i < (weights n).length)
        (h2 : i < (p_returns (weights n) r_A r_B).length),
      (p_returns (weights n) r_A r_B)[i] =
        ((weights n)[i]).1 * r_A + ((weights n)[i]).2 * r_B) ∧
    ∀ x ∈ p_returns (weights n) r_A r_B,
      min r_A r_B ≤ x ∧ x ≤ max r_A r_B := by
  refine ⟨List.length_map _ _, ?_, ?_⟩
  · intro i h h2
    unfold p_returns
    rw [List.getElem_map]
  · intro x hx
    unfold p_returns weights at hx
    rw [List.map_map] at hx
    simp only [List.mem_map, Function.comp] at hx
    obtain ⟨w, hw, rfl⟩ := hx
    obtain ⟨hw0, hw1⟩ := linspace01_mem n w hw
    rcases le_total r_A r_B with hab | hab
    · rw [min_eq_left hab, max_eq_right hab]
      constructor
      · nlinarith [mul_nonneg (sub_nonneg.mpr hw1) (sub_nonneg.mpr hab)]
      · nlinarith [mul_nonneg hw0 (sub_nonneg.mpr hab)]
    · rw [min_eq_right hab, max_eq_left hab]
      constructor
      · nlinarith [mul_nonneg hw0 (sub_nonneg.mpr hab)]
      · nlinarith [mul_nonneg (sub_nonneg.mpr hw1) (sub_nonneg.mpr hab)]

/-- C1 (code bug): at the grid `weights 2` with the reference inputs
`std_A = 0.18`, `std_B = 0.10`, `rho = -0.3`, the source's `p_var` returns
`[0.01, 0.0324]` — the variances `std_B^2`, `std_A^2` — where the textbook
formula of the spec (and of the notebook's own markdown) gives the standard
deviations `[0.10, 0.18]`.  The pure-asset boundary volatilities disagree,
because `p_var` squares the already-squared variance terms again. -/
theorem p_var_double_squares :
    p_var (weights 2) (18/100) (1/10) (-3/10) =
      [((1/100 : ℚ) : ℝ), ((81/2500 : ℚ) : ℝ)] ∧
    compute_volatility_spec (weights 2) (18/100) (1/10) (-3/10) =
      [((1/10 : ℚ) : ℝ), ((18/100 : ℚ) : ℝ)] ∧
    ((1/100 : ℚ) : ℝ) ≠ ((1/10 : ℚ) : ℝ) ∧
    ((81/2500 : ℚ) : ℝ) ≠ ((18/100 : ℚ) : ℝ) := by
  have hg : weights 2 = [(0, 1), (1, 0)] := by
    norm_num [weights, linspace01, List.range_succ]
  refine ⟨?_, ?_, ?_, ?_⟩
  · rw [hg]
    unfold p_var
    rw [List.map_cons, List.map_cons, List.map_nil]
    rw [sqrt_rat_eq _ (1/100) (by norm_num) (by norm_num [port_var]),
        sqrt_rat_eq _ (81/2500) (by norm_num) (by norm_num [port_var])]
  · rw [hg]
    unfold compute_volatility_spec
    rw [List.map_cons, List.map_cons, List.map_nil]
    rw [sqrt_rat_eq _ (1/10) (by norm_num) (by norm_num),
        sqrt_rat_eq _ (18/100) (by norm_num) (by norm_num)]
  · intro h
    rw [Rat.cast_inj] at h
    norm_num at h
  · intro h
    rw [Rat.cast_inj] at h
    norm_num at h

/-- C6 counterexample: with `rho = 1.5` the volatility computation does not
fail with an InvalidInput signal — it returns plain numeric volatilities
(here `[1, 1]` for unit standard deviations on the two-point grid). -/
theorem p_var_rho_gt_one_counterexample :
    p_var (weights 2) 1 1 (3/2) = [((1 : ℚ) : ℝ), ((1 : ℚ) : ℝ)] := by
  have hg : weights 2 = [(0, 1), (1, 0)] := by
    norm_num [weights, linspace01, List.range_succ]
  rw [hg]
  unfold p_var
  rw [List.map_cons, List.map_cons, List.map_nil]
  rw [sqrt_rat_eq _ 1 (by norm_num) (by norm_num [port_var]),
      sqrt_rat_eq _ 1 (by norm_num) (by norm_num [port_var])]

/-- C6 amended: `p_var` performs no input validation.  For any grid of
nonnegative weight pairs and any standard deviations, with `rho = 3/2`
every variance is nonnegative, and the result is the list of their genuine
real square roots: each output entry is a nonnegative real whose square is
the variance (no failure, no NaN, no complex value). -/
theorem p_var_rho_gt_one_amended (ws : List (ℚ × ℚ)) (std_A std_B : ℚ)
    (hw : ∀ e ∈ ws, 0 ≤ e.1 ∧ 0 ≤ e.2) :
    (p_var ws std_A std_B (3/2)).length = ws.length ∧
    ∀ i (h : i < ws.length) (h2 : i < (p_var ws std_A std_B (3/2)).length),
      0 ≤ (p_var ws std_A std_B (3/2))[i] ∧
      ((p_var ws std_A std_B (3/2))[i]) ^ 2 =
        ((port_var std_A std_B (3/2) ws[i] : ℚ) : ℝ) := by
  constructor
  · exact List.length_map _ _
  · intro i h h2
    have hmem : ws[i] ∈ ws := List.getElem_mem h
    obtain ⟨hw1, hw2⟩ := hw ws[i] hmem
    have hvar : 0 ≤ port_var std_A std_B (3/2) ws[i] := by
      unfold port_var
      nlinarith [sq_nonneg (std_A ^ 2 * (ws[i]).1), sq_nonneg (std_B ^ 2 * (ws[i]).2),
        mul_nonneg (mul_nonneg (mul_nonneg hw1 hw2) (sq_nonneg std_A)) (sq_nonneg std_B)]
    constructor
    · unfold p_var
      rw [List.getElem_map]
      exact Real.sqrt_nonneg _
    · unfold p_var
      rw [List.getElem_map]
      exact Real.sq_sqrt (by exact_mod_cast hvar)

/-- C6 amended, witness: the amended statement holds at the concrete grid
`weights 2` with unit standard deviations. -/
theorem p_var_rho_gt_one_amended_witness :
    (∀ e ∈ weights 2, 0 ≤ e.1 ∧ 0 ≤ e.2) ∧
    ((p_var (weights 2) 1 1 (3/2)).length = (weights 2).length ∧
      ∀ i (h : i < (weights 2).length)
          (h2 : i < (p_var (weights 2) 1 1 (3/2)).length),
        0 ≤ (p_var (weights 2) 1 1 (3/2))[i] ∧
        ((p_var (weights 2) 1 1 (3/2))[i]) ^ 2 =
          ((port_var 1 1 (3/2) (weights 2)[i] : ℚ) : ℝ)) :=
  ⟨by norm_num [weights, linspace01, List.range_succ],
    p_var_rho_gt_one_amended (weights 2) 1 1
      (by norm_num [weights, linspace01, List.range_succ])⟩

/-- C8: at an interior grid point (`0 < w_A < 1`) of a weight grid, with
nonnegative standard deviations and a successful first call (nonnegative
variance), increasing the correlation does not decrease the computed
volatility: `p_var` is monotone in `rho` at that index. -/
theorem p_var_monotone_rho (n i : ℕ) (std_A std_B rho1 rho2 : ℚ)
    (hsA : 0 ≤ std_A) (hsB : 0 ≤ std_B)
    (h : i < (weights n).length)
    (h1 : i < (p_var (weights n) std_A std_B rho1).length)
    (h2 : i < (p_var (weights n) std_A std_B rho2).length)
    (hw0 : 0 < ((weights n)[i]).1) (hw1 : ((weights n)[i]).1 < 1)
    (hrho : rho1 < rho2)
    (hok : 0 ≤ port_var std_A std_B rho1 (weights n)[i]) :
    (p_var (weights n) std_A std_B rho1)[i] ≤
      (p_var (weights n) std_A std_B rho2)[i] := by
  unfold p_var
  rw [List.getElem_map, List.getElem_map]
  apply Real.sqrt_le_sqrt
  have he2 : ((weights n)[i]).2 = 1 - ((weights n)[i]).1 := by
    rw [weights_getElem n i h]
  have hw2 : 0 < ((weights n)[i]).2 := by
    rw [he2]; linarith
  have hkey : port_var std_A std_B rho1 (weights n)[i] ≤
      port_var std_A std_B rho2 (weights n)[i] := by
    unfold port_var
    nlinarith [mul_nonneg (mul_nonneg (mul_nonneg
        (mul_pos hw0 hw2).le (sq_nonneg std_A)) (sq_nonneg std_B))
      (sub_nonneg.mpr hrho.le)]
  exact_mod_cast hkey

/-- C8 witness: the monotonicity holds at the interior point of the
three-point grid with unit standard deviations and `rho1 = -1/2 < 1/2 = rho2`. -/
theorem p_var_monotone_rho_witness :
    ((-1/2 : ℚ) < 1/2) ∧
    (p_var (weights 3) 1 1 (-1/2)).get
        ⟨1, by rw [p_var, List.length_map, weights_length]; norm_num⟩ ≤
      (p_var (weights 3) 1 1 (1/2)).get
        ⟨1, by rw [p_var, List.length_map, weights_length]; norm_num⟩ :=
  ⟨by norm_num,
    p_var_monotone_rho 3 1 1 1 (-1/2) (1/2) (by norm_num) (by norm_num)
      (by rw [weights_length]; norm_num)
      (by rw [p_var, List.length_map, weights_length]; norm_num)
      (by rw [p_var, List.length_map, weights_length]; norm_num)
      (by norm_num [weights, linspace01, List.range_succ])
      (by norm_num [weights, linspace01, List.range_succ])
      (by norm_num)
      (by norm_num [weights, linspace01, List.range_succ, port_var])⟩

/-- C10: for every non-empty grid whose first point has a nonzero Sharpe
value, the ratio component returned by `max_sharpe` is the Sharpe ratio of
the FIRST grid point: the strict-improvement branch assigns the improved
ratio only to the shadowing local variable, so `max_sharpe_ratio` stays
frozen at the first point's value. -/
theorem max_sharpe_returns_first_ratio (r_f : ℚ) (e : ℚ × ℚ)
    (rest : List (ℚ × ℚ)) (A B : ℚ × ℚ) (rho_AB : ℚ)
    (h0 : sharpe_of r_f (ms_point A B rho_AB e) ≠ NpF.fin 0) :
    (max_sharpe r_f (e :: rest) A B rho_AB).2 =
      sharpe_of r_f (ms_point A B rho_AB e) := by
  rw [max_sharpe_char r_f e rest A B rho_AB h0]

/-- C10 witness: at the reference parameters on the two-point grid the
returned ratio is the first grid point's Sharpe value. -/
theorem max_sharpe_returns_first_ratio_witness :
    sharpe_of (3/100)
        (ms_point (15/100, 18/100) (7/100, 1/10) (-3/10) (0, 1)) ≠
      NpF.fin 0 ∧
    (max_sharpe (3/100) ((0, 1) :: [(1, 0)]) (15/100, 18/100) (7/100, 1/10)
        (-3/10)).2 =
      sharpe_of (3/100)
        (ms_point (15/100, 18/100) (7/100, 1/10) (-3/10) (0, 1)) := by
  have h4 : sharpe_of (3/100)
      (ms_point (15/100, 18/100) (7/100, 1/10) (-3/10) (0, 1)) =
      NpF.fin ((4 : ℚ) : ℝ) :=
    sharpe_eq_fin (3/100) (15/100, 18/100) (7/100, 1/10) (-3/10) (0, 1) 4
      (by norm_num [port_var]) (by norm_num) (by norm_num)
      (by norm_num [port_var])
  have h0 : sharpe_of (3/100)
      (ms_point (15/100, 18/100) (7/100, 1/10) (-3/10) (0, 1)) ≠
      NpF.fin 0 := by
    rw [h4]
    exact NpF.fin_ne_fin_zero (by norm_num)
  exact ⟨h0, max_sharpe_returns_first_ratio (3/100) (0, 1) [(1, 0)]
    (15/100, 18/100) (7/100, 1/10) (-3/10) h0⟩

/-- C2 counterexample: on the four-point grid with `A = (1/2, 1)`,
`B = (1, 1)`, `rho = -1`, `r_f = 0` the Sharpe values are
`[1, 5/2, 2, 1/2]`, yet `max_sharpe` returns the pair `(2/3, 1/3)` (whose
own Sharpe ratio is `2`) together with the ratio `1`: the returned ratio is
not the maximal Sharpe ratio (the point `(1/3, 2/3)` of the grid attains
`5/2`), and it is not the returned pair's ratio either. -/
theorem max_sharpe_not_argmax :
    weights 4 = [(0, 1), (1/3, 2/3), (2/3, 1/3), (1, 0)] ∧
    max_sharpe 0 (weights 4) (1/2, 1) (1, 1) (-1) =
      (some (2/3, 1/3), NpF.fin ((1 : ℚ) : ℝ)) ∧
    sharpe_of 0 (ms_point (1/2, 1) (1, 1) (-1) (1/3, 2/3)) =
      NpF.fin ((5/2 : ℚ) : ℝ) ∧
    sharpe_of 0 (ms_point (1/2, 1) (1, 1) (-1) (2/3, 1/3)) =
      NpF.fin ((2 : ℚ) : ℝ) ∧
    ((5/2 : ℚ) : ℝ) ≠ ((1 : ℚ) : ℝ) ∧ ((2 : ℚ) : ℝ) ≠ ((1 : ℚ) : ℝ) := by
  have hg : weights 4 = [(0, 1), (1/3, 2/3), (2/3, 1/3), (1, 0)] := by
    norm_num [weights, linspace01, List.range_succ]
  have h0 : sharpe_of 0 (ms_point (1/2, 1) (1, 1) (-1) (0, 1)) =
      NpF.fin ((1 : ℚ) : ℝ) :=
    sharpe_eq_fin 0 (1/2, 1) (1, 1) (-1) (0, 1) 1
      (by norm_num [port_var]) (by norm_num) (by norm_num)
      (by norm_num [port_var])
  have hne : sharpe_of 0 (ms_point (1/2, 1) (1, 1) (-1) (0, 1)) ≠
      NpF.fin 0 := by
    rw [h0]
    exact NpF.fin_ne_fin_zero (by norm_num)
  have hp1 : NpF.gt (sharpe_of 0 (ms_point (1/2, 1) (1, 1) (-1) (1/3, 2/3)))
      (NpF.fin ((1 : ℚ) : ℝ)) :=
    (sharpe_gt_fin_iff 0 (1/2, 1) (1, 1) (-1) (1/3, 2/3) 1
      (by norm_num [port_var]) (by norm_num) (by norm_num)).mpr
      (by norm_num [port_var])
  have hp2 : NpF.gt (sharpe_of 0 (ms_point (1/2, 1) (1, 1) (-1) (2/3, 1/3)))
      (NpF.fin ((1 : ℚ) : ℝ)) :=
    (sharpe_gt_fin_iff 0 (1/2, 1) (1, 1) (-1) (2/3, 1/3) 1
      (by norm_num [port_var]) (by norm_num) (by norm_num)).mpr
      (by norm_num [port_var])
  have hn3 : ¬ NpF.gt (sharpe_of 0 (ms_point (1/2, 1) (1, 1) (-1) (1, 0)))
      (NpF.fin ((1 : ℚ) : ℝ)) :=
    sharpe_not_gt_fin 0 (1/2, 1) (1, 1) (-1) (1, 0) 1
      (by norm_num [port_var]) (by norm_num) (by norm_num)
      (by norm_num [port_var])
  refine ⟨hg, ?_, ?_, ?_, by norm_num, by norm_num⟩
  · rw [hg, max_sharpe_char 0 (0, 1) [(1/3, 2/3), (2/3, 1/3), (1, 0)]
        (1/2, 1) (1, 1) (-1) hne, h0]
    rw [List.map_cons, List.map_cons, List.map_cons, List.map_nil]
    rw [lastExceed_cons_pos _ _ _ _ _ hp1, lastExceed_cons_pos _ _ _ _ _ hp2,
        lastExceed_cons_neg _ _ _ _ _ hn3, lastExceed_nil]
    rfl
  · exact sharpe_eq_fin 0 (1/2, 1) (1, 1) (-1) (1/3, 2/3) (5/2)
      (by norm_num [port_var]) (by norm_num) (by norm_num)
      (by norm_num [port_var])
  · exact sharpe_eq_fin 0 (1/2, 1) (1, 1) (-1) (2/3, 1/3) 2
      (by norm_num [port_var]) (by norm_num) (by norm_num)
      (by norm_num [port_var])

/-- C2 amended: for a non-empty grid whose first point has a nonzero
Sharpe value, `max_sharpe` returns the Sharpe ratio of the first grid point
together with the weights of the LAST grid point whose Sharpe value
strictly exceeds it (the first point's weights when none does); the
returned ratio and the returned weights need not belong to the same grid
index. -/
theorem max_sharpe_amended (r_f : ℚ) (e : ℚ × ℚ) (rest : List (ℚ × ℚ))
    (A B : ℚ × ℚ) (rho_AB : ℚ)
    (h0 : sharpe_of r_f (ms_point A B rho_AB e) ≠ NpF.fin 0) :
    max_sharpe r_f (e :: rest) A B rho_AB =
      (some (lastExceed r_f (sharpe_of r_f (ms_point A B rho_AB e)) e
          (rest.map (ms_point A B rho_AB))),
        sharpe_of r_f (ms_point A B rho_AB e)) :=
  max_sharpe_char r_f e rest A B rho_AB h0

/-- C2 amended, witness: the characterization applied at the four-point
counterexample grid. -/
theorem max_sharpe_amended_witness :
    sharpe_of 0 (ms_point (1/2, 1) (1, 1) (-1) (0, 1)) ≠ NpF.fin 0 ∧
    max_sharpe 0 ((0, 1) :: [(1/3, 2/3), (2/3, 1/3), (1, 0)]) (1/2, 1) (1, 1)
        (-1) =
      (some (lastExceed 0 (sharpe_of 0 (ms_point (1/2, 1) (1, 1) (-1) (0, 1)))
          (0, 1) ([(1/3, 2/3), (2/3, 1/3), (1, 0)].map
            (ms_point (1/2, 1) (1, 1) (-1)))),
        sharpe_of 0 (ms_point (1/2, 1) (1, 1) (-1) (0, 1))) := by
  have h0 : sharpe_of 0 (ms_point (1/2, 1) (1, 1) (-1) (0, 1)) =
      NpF.fin ((1 : ℚ) : ℝ) :=
    sharpe_eq_fin 0 (1/2, 1) (1, 1) (-1) (0, 1) 1
      (by norm_num [port_var]) (by norm_num) (by norm_num)
      (by norm_num [port_var])
  have hne : sharpe_of 0 (ms_point (1/2, 1) (1, 1) (-1) (0, 1)) ≠
      NpF.fin 0 := by
    rw [h0]
    exact NpF.fin_ne_fin_zero (by norm_num)
  exact ⟨hne, max_sharpe_amended 0 (0, 1) [(1/3, 2/3), (2/3, 1/3), (1, 0)]
    (1/2, 1) (1, 1) (-1) hne⟩

/-- C7 counterexample: with `std_B = 0` the first grid point of `weights 2`
has volatility exactly `0`; `max_sharpe` does not skip it and does not
fail — the division produces numpy `inf`, which is returned as the Sharpe
ratio. -/
theorem max_sharpe_zero_vol_counterexample :
    (max_sharpe (3/100) (weights 2) (15/100, 18/100) (7/100, 0) 0).2 =
      NpF.pinf := by
  have hg : weights 2 = [(0, 1), (1, 0)] := by
    norm_num [weights, linspace01, List.range_succ]
  have hp : sharpe_of (3/100)
      (ms_point (15/100, 18/100) (7/100, 0) 0 (0, 1)) = NpF.pinf :=
    sharpe_eq_pinf (3/100) (15/100, 18/100) (7/100, 0) 0 (0, 1)
      (by norm_num [port_var]) (by norm_num)
  have hne : sharpe_of (3/100)
      (ms_point (15/100, 18/100) (7/100, 0) 0 (0, 1)) ≠ NpF.fin 0 := by
    rw [hp]
    exact fun h => NpF.noConfusion h
  rw [hg, max_sharpe_char (3/100) (0, 1) [(1, 0)] (15/100, 18/100) (7/100, 0)
      0 hne, hp]

/-- C7 amended: `max_sharpe` neither skips a zero-volatility grid point nor
fails with an InvalidInput signal; the Sharpe division at such a point
produces numpy `inf`, and when the zero-volatility point is the first grid
point (with positive excess return) that `inf` is returned as the ratio. -/
theorem max_sharpe_zero_vol_amended (r_f : ℚ) (e : ℚ × ℚ)
    (rest : List (ℚ × ℚ)) (A B : ℚ × ℚ) (rho_AB : ℚ)
    (hv : port_var A.2 B.2 rho_AB e = 0)
    (hc : 0 < e.1 * A.1 + e.2 * B.1 - r_f) :
    (max_sharpe r_f (e :: rest) A B rho_AB).2 = NpF.pinf := by
  have hp := sharpe_eq_pinf r_f A B rho_AB e hv hc
  have hne : sharpe_of r_f (ms_point A B rho_AB e) ≠ NpF.fin 0 := by
    rw [hp]
    exact fun h => NpF.noConfusion h
  rw [max_sharpe_char r_f e rest A B rho_AB hne, hp]

/-- C7 amended, witness: a one-point grid with `std_B = 0` at the single
point `(0, 1)` has zero variance and positive excess return, and the
returned ratio is `inf`. -/
theorem max_sharpe_zero_vol_amended_witness :
    port_var (1, 1).2 (1/2, 0).2 0 (0, 1) = 0 ∧
    (0 : ℚ) < (0, 1).1 * (1, 1).1 + (0, 1).2 * (1/2, 0).1 - 0 ∧
    (max_sharpe 0 ((0, 1) :: []) (1, 1) (1/2, 0) 0).2 = NpF.pinf :=
  ⟨by norm_num [port_var], by norm_num,
    max_sharpe_zero_vol_amended 0 (0, 1) [] (1, 1) (1/2, 0) 0
      (by norm_num [port_var]) (by norm_num)⟩

/-- C3: at the reference inputs `A = (0.15, 0.18)`, `B = (0.07, 0.10)`,
`rho = -0.3`, the 25-point grid and `r_f = 0.03`, `max_sharpe` returns the
weight pair with `w_A = 5/6 = 20/24 = 0.8333...` together with the Sharpe
ratio exactly `4`. -/
theorem max_sharpe_known_value :
    max_sharpe (3/100) (weights 25) (15/100, 18/100) (7/100, 1/10) (-3/10) =
      (some (5/6, 1/6), NpF.fin ((4 : ℚ) : ℝ)) := by
  have hg : weights 25 = [(0, 1), (1/24, 23/24), (1/12, 11/12), (1/8, 7/8), (1/6, 5/6), (5/24, 19/24), (1/4, 3/4), (7/24, 17/24), (1/3, 2/3), (3/8, 5/8), (5/12, 7/12), (11/24, 13/24), (1/2, 1/2), (13/24, 11/24), (7/12, 5/12), (5/8, 3/8), (2/3, 1/3), (17/24, 7/24), (3/4, 1/4), (19/24, 5/24), (5/6, 1/6), (7/8, 1/8), (11/12, 1/12), (23/24, 1/24), (1, 0)] := by
    norm_num [weights, linspace01, List.range_succ]
  have h0 : sharpe_of (3/100) (ms_point (15/100, 18/100) (7/100, 1/10) (-3/10) (0, 1)) =
      NpF.fin ((4 : ℚ) : ℝ) :=
    sharpe_eq_fin (3/100) (15/100, 18/100) (7/100, 1/10) (-3/10) (0, 1) 4
      (by norm_num [port_var]) (by norm_num) (by norm_num)
      (by norm_num [port_var])
  have hne : sharpe_of (3/100) (ms_point (15/100, 18/100) (7/100, 1/10) (-3/10) (0, 1)) ≠
      NpF.fin 0 := by
    rw [h0]
    exact NpF.fin_ne_fin_zero (by norm_num)
  have h1 : NpF.gt (sharpe_of (3/100) (ms_point (15/100, 18/100) (7/100, 1/10) (-3/10) (1/24, 23/24)))
      (NpF.fin ((4 : ℚ) : ℝ)) :=
    (sharpe_gt_fin_iff (3/100) (15/100, 18/100) (7/100, 1/10) (-3/10) (1/24, 23/24) 4
      (by norm_num [port_var]) (by norm_num) (by norm_num)).mpr
      (by norm_num [port_var])
  have h2 : NpF.gt (sharpe_of (3/100) (ms_point (15/100, 18/100) (7/100, 1/10) (-3/10) (1/12, 11/12)))
      (NpF.fin ((4 : ℚ) : ℝ)) :=
    (sharpe_gt_fin_iff (3/100) (15/100, 18/100) (7/100, 1/10) (-3/10) (1/12, 11/12) 4
      (by norm_num [port_var]) (by norm_num) (by norm_num)).mpr
      (by norm_num [port_var])
  have h3 : NpF.gt (sharpe_of (3/100) (ms_point (15/100, 18/100) (7/100, 1/10) (-3/10) (1/8, 7/8)))
      (NpF.fin ((4 : ℚ) : ℝ)) :=
    (sharpe_gt_fin_iff (3/100) (15/100, 18/100) (7/100, 1/10) (-3/10) (1/8, 7/8) 4
      (by norm_num [port_var]) (by norm_num) (by norm_num)).mpr
      (by norm_num [port_var])
  have h4 : NpF.gt (sharpe_of (3/100) (ms_point (15/100, 18/100) (7/100, 1/10) (-3/10) (1/6, 5/6)))
      (NpF.fin ((4 : ℚ) : ℝ)) :=
    (sharpe_gt_fin_iff (3/100) (15/100, 18/100) (7/100, 1/10) (-3/10) (1/6, 5/6) 4
      (by norm_num [port_var]) (by norm_num) (by norm_num)).mpr
      (by norm_num [port_var])
  have h5 : NpF.gt (sharpe_of (3/100) (ms_point (15/100, 18/100) (7/100, 1/10) (-3/10) (5/24, 19/24)))
      (NpF.fin ((4 : ℚ) : ℝ)) :=
    (sharpe_gt_fin_iff (3/100) (15/100, 18/100) (7/100, 1/10) (-3/10) (5/24, 19/24) 4
      (by norm_num [port_var]) (by norm_num) (by norm_num)).mpr
      (by norm_num [port_var])
  have h6 : NpF.gt (sharpe_of (3/100) (ms_point (15/100, 18/100) (7/100, 1/10) (-3/10) (1/4, 3/4)))
      (NpF.fin ((4 : ℚ) : ℝ)) :=
    (sharpe_gt_fin_iff (3/100) (15/100, 18/100) (7/100, 1/10) (-3/10) (1/4, 3/4) 4
      (by norm_num [port_var]) (by norm_num) (by norm_num)).mpr
      (by norm_num [port_var])
  have h7 : NpF.gt (sharpe_of (3/100) (ms_point (15/100, 18/100) (7/100, 1/10) (-3/10) (7/24, 17/24)))
      (NpF.fin ((4 : ℚ) : ℝ)) :=
    (sharpe_gt_fin_iff (3/100) (15/100, 18/100) (7/100, 1/10) (-3/10) (7/24, 17/24) 4
      (by norm_num [port_var]) (by norm_num) (by norm_num)).mpr
      (by norm_num [port_var])
  have h8 : NpF.gt (sharpe_of (3/100) (ms_point (15/100, 18/100) (7/100, 1/10) (-3/10) (1/3, 2/3)))
      (NpF.fin ((4 : ℚ) : ℝ)) :=
    (sharpe_gt_fin_iff (3/100) (15/100, 18/100) (7/100, 1/10) (-3/10) (1/3, 2/3) 4
      (by norm_num [port_var]) (by norm_num) (by norm_num)).mpr
      (by norm_num [port_var])
  have h9 : NpF.gt (sharpe_of (3/100) (ms_point (15/100, 18/100) (7/100, 1/10) (-3/10) (3/8, 5/8)))
      (NpF.fin ((4 : ℚ) : ℝ)) :=
    (sharpe_gt_fin_iff (3/100) (15/100, 18/100) (7/100, 1/10) (-3/10) (3/8, 5/8) 4
      (by norm_num [port_var]) (by norm_num) (by norm_num)).mpr
      (by norm_num [port_var])
  have h10 : NpF.gt (sharpe_of (3/100) (ms_point (15/100, 18/100) (7/100, 1/10) (-3/10) (5/12, 7/12)))
      (NpF.fin ((4 : ℚ) : ℝ)) :=
    (sharpe_gt_fin_iff (3/100) (15/100, 18/100) (7/100, 1/10) (-3/10) (5/12, 7/12) 4
      (by norm_num [port_var]) (by norm_num) (by norm_num)).mpr
      (by norm_num [port_var])
  have h11 : NpF.gt (sharpe_of (3/100) (ms_point (15/100, 18/100) (7/100, 1/10) (-3/10) (11/24, 13/24)))
      (NpF.fin ((4 : ℚ) : ℝ)) :=
    (sharpe_gt_fin_iff (3/100) (15/100, 18/100) (7/100, 1/10) (-3/10) (11/24, 13/24) 4
      (by norm_num [port_var]) (by norm_num) (by norm_num)).mpr
      (by norm_num [port_var])
  have h12 : NpF.gt (sharpe_of (3/100) (ms_point (15/100, 18/100) (7/100, 1/10) (-3/10) (1/2, 1/2)))
      (NpF.fin ((4 : ℚ) : ℝ)) :=
    (sharpe_gt_fin_iff (3/100) (15/100, 18/100) (7/100, 1/10) (-3/10) (1/2, 1/2) 4
      (by norm_num [port_var]) (by norm_num) (by norm_num)).mpr
      (by norm_num [port_var])
  have h13 : NpF.gt (sharpe_of (3/100) (ms_point (15/100, 18/100) (7/100, 1/10) (-3/10) (13/24, 11/24)))
      (NpF.fin ((4 : ℚ) : ℝ)) :=
    (sharpe_gt_fin_iff (3/100) (15/100, 18/100) (7/100, 1/10) (-3/10) (13/24, 11/24) 4
      (by norm_num [port_var]) (by norm_num) (by norm_num)).mpr
      (by norm_num [port_var])
  have h14 : NpF.gt (sharpe_of (3/100) (ms_point (15/100, 18/100) (7/100, 1/10) (-3/10) (7/12, 5/12)))
      (NpF.fin ((4 : ℚ) : ℝ)) :=
    (sharpe_gt_fin_iff (3/100) (15/100, 18/100) (7/100, 1/10) (-3/10) (7/12, 5/12) 4
      (by norm_num [port_var]) (by norm_num) (by norm_num)).mpr
      (by norm_num [port_var])
  have h15 : NpF.gt (sharpe_of (3/100) (ms_point (15/100, 18/100) (7/100, 1/10) (-3/10) (5/8, 3/8)))
      (NpF.fin ((4 : ℚ) : ℝ)) :=
    (sharpe_gt_fin_iff (3/100) (15/100, 18/100) (7/100, 1/10) (-3/10) (5/8, 3/8) 4
      (by norm_num [port_var]) (by norm_num) (by norm_num)).mpr
      (by norm_num [port_var])
  have h16 : NpF.gt (sharpe_of (3/100) (ms_point (15/100, 18/100) (7/100, 1/10) (-3/10) (2/3, 1/3)))
      (NpF.fin ((4 : ℚ) : ℝ)) :=
    (sharpe_gt_fin_iff (3/100) (15/100, 18/100) (7/100, 1/10) (-3/10) (2/3, 1/3) 4
      (by norm_num [port_var]) (by norm_num) (by norm_num)).mpr
      (by norm_num [port_var])
  have h17 : NpF.gt (sharpe_of (3/100) (ms_point (15/100, 18/100) (7/100, 1/10) (-3/10) (17/24, 7/24)))
      (NpF.fin ((4 : ℚ) : ℝ)) :=
    (sharpe_gt_fin_iff (3/100) (15/100, 18/100) (7/100, 1/10) (-3/10) (17/24, 7/24) 4
      (by norm_num [port_var]) (by norm_num) (by norm_num)).mpr
      (by norm_num [port_var])
  have h18 : NpF.gt (sharpe_of (3/100) (ms_point (15/100, 18/100) (7/100, 1/10) (-3/10) (3/4, 1/4)))
      (NpF.fin ((4 : ℚ) : ℝ)) :=
    (sharpe_gt_fin_iff (3/100) (15/100, 18/100) (7/100, 1/10) (-3/10) (3/4, 1/4) 4
      (by norm_num [port_var]) (by norm_num) (by norm_num)).mpr
      (by norm_num [port_var])
  have h19 : NpF.gt (sharpe_of (3/100) (ms_point (15/100, 18/100) (7/100, 1/10) (-3/10) (19/24, 5/24)))
      (NpF.fin ((4 : ℚ) : ℝ)) :=
    (sharpe_gt_fin_iff (3/100) (15/100, 18/100) (7/100, 1/10) (-3/10) (19/24, 5/24) 4
      (by norm_num [port_var]) (by norm_num) (by norm_num)).mpr
      (by norm_num [port_var])
  have h20 : NpF.gt (sharpe_of (3/100) (ms_point (15/100, 18/100) (7/100, 1/10) (-3/10) (5/6, 1/6)))
      (NpF.fin ((4 : ℚ) : ℝ)) :=
    (sharpe_gt_fin_iff (3/100) (15/100, 18/100) (7/100, 1/10) (-3/10) (5/6, 1/6) 4
      (by norm_num [port_var]) (by norm_num) (by norm_num)).mpr
      (by norm_num [port_var])
  have h21 : ¬ NpF.gt (sharpe_of (3/100) (ms_point (15/100, 18/100) (7/100, 1/10) (-3/10) (7/8, 1/8)))
      (NpF.fin ((4 : ℚ) : ℝ)) :=
    sharpe_not_gt_fin (3/100) (15/100, 18/100) (7/100, 1/10) (-3/10) (7/8, 1/8) 4
      (by norm_num [port_var]) (by norm_num) (by norm_num)
      (by norm_num [port_var])
  have h22 : ¬ NpF.gt (sharpe_of (3/100) (ms_point (15/100, 18/100) (7/100, 1/10) (-3/10) (11/12, 1/12)))
      (NpF.fin ((4 : ℚ) : ℝ)) :=
    sharpe_not_gt_fin (3/100) (15/100, 18/100) (7/100, 1/10) (-3/10) (11/12, 1/12) 4
      (by norm_num [port_var]) (by norm_num) (by norm_num)
      (by norm_num [port_var])
  have h23 : ¬ NpF.gt (sharpe_of (3/100) (ms_point (15/100, 18/100) (7/100, 1/10) (-3/10) (23/24, 1/24)))
      (NpF.fin ((4 : ℚ) : ℝ)) :=
    sharpe_not_gt_fin (3/100) (15/100, 18/100) (7/100, 1/10) (-3/10) (23/24, 1/24) 4
      (by norm_num [port_var]) (by norm_num) (by norm_num)
      (by norm_num [port_var])
  have h24 : ¬ NpF.gt (sharpe_of (3/100) (ms_point (15/100, 18/100) (7/100, 1/10) (-3/10) (1, 0)))
      (NpF.fin ((4 : ℚ) : ℝ)) :=
    sharpe_not_gt_fin (3/100) (15/100, 18/100) (7/100, 1/10) (-3/10) (1, 0) 4
      (by norm_num [port_var]) (by norm_num) (by norm_num)
      (by norm_num [port_var])
  rw [hg, max_sharpe_char (3/100) (0, 1)
      [(1/24, 23/24), (1/12, 11/12), (1/8, 7/8), (1/6, 5/6), (5/24, 19/24), (1/4, 3/4), (7/24, 17/24), (1/3, 2/3), (3/8, 5/8), (5/12, 7/12), (11/24, 13/24), (1/2, 1/2), (13/24, 11/24), (7/12, 5/12), (5/8, 3/8), (2/3, 1/3), (17/24, 7/24), (3/4, 1/4), (19/24, 5/24), (5/6, 1/6), (7/8, 1/8), (11/12, 1/12), (23/24, 1/24), (1, 0)]
      (15/100, 18/100) (7/100, 1/10) (-3/10) hne, h0]
  simp only [List.map_cons, List.map_nil]
  rw [lastExceed_cons_pos _ _ _ _ _ h1,
      lastExceed_cons_pos _ _ _ _ _ h2,
      lastExceed_cons_pos _ _ _ _ _ h3,
      lastExceed_cons_pos _ _ _ _ _ h4,
      lastExceed_cons_pos _ _ _ _ _ h5,
      lastExceed_cons_pos _ _ _ _ _ h6,
      lastExceed_cons_pos _ _ _ _ _ h7,
      lastExceed_cons_pos _ _ _ _ _ h8,
      lastExceed_cons_pos _ _ _ _ _ h9,
      lastExceed_cons_pos _ _ _ _ _ h10,
      lastExceed_cons_pos _ _ _ _ _ h11,
      lastExceed_cons_pos _ _ _ _ _ h12,
      lastExceed_cons_pos _ _ _ _ _ h13,
      lastExceed_cons_pos _ _ _ _ _ h14,
      lastExceed_cons_pos _ _ _ _ _ h15,
      lastExceed_cons_pos _ _ _ _ _ h16,
      lastExceed_cons_pos _ _ _ _ _ h17,
      lastExceed_cons_pos _ _ _ _ _ h18,
      lastExceed_cons_pos _ _ _ _ _ h19,
      lastExceed_cons_pos _ _ _ _ _ h20,
      lastExceed_cons_neg _ _ _ _ _ h21,
      lastExceed_cons_neg _ _ _ _ _ h22,
      lastExceed_cons_neg _ _ _ _ _ h23,
      lastExceed_cons_neg _ _ _ _ _ h24,
      lastExceed_nil]
  rfl

/-- C9 witness: on the two-point grid with `r_A = 3`, `r_B = 1` the returns
list is `[1, 3]`; it has the grid's length and the entry `1` lies between
`min 3 1` and `max 3 1`. -/
theorem p_returns_spec_witness :
    (p_returns (weights 2) 3 1).length = (weights 2).length ∧
    (1 : ℚ) ∈ p_returns (weights 2) 3 1 ∧
    min (3 : ℚ) 1 ≤ 1 ∧ (1 : ℚ) ≤ max 3 1 := by
  have hmem : (1 : ℚ) ∈ p_returns (weights 2) 3 1 := by
    norm_num [p_returns, weights, linspace01, List.range_succ]
  have hb := (p_returns_spec 2 3 1).2.2 1 hmem
  exact ⟨(p_returns_spec 2 3 1).1, hmem, hb.1, hb.2⟩
